import Mathlib

/-!
Verification of the GLSL source processor (GLSLSourceProcessor).

The development shallowly embeds the include-expansion processor from
`src/include/glsl/glsl_source_processor.inl` together with its header
`src/glsl_source_processor.h`, and, where a claim cites it, the parallel
variant in `src/glsl_source_processor.inl`.  Strings are modelled as
`List Char`; the C++ recursion (which is bounded only by the stack) is
modelled with an explicit fuel parameter that is consumed at every
processed line, so that every function is structurally recursive and
kernel-evaluable; `PResult.outOfFuel` marks an exhausted budget and is
distinct from the `std::nullopt` result, which is `PResult.fail`.
-/

/-- Character strings, modelled as lists of characters. -/
abbrev Str := List Char

/-- The two-valued source-kind tag `SourceType` from `glsl_source_processor.h`. -/
inductive SourceType where
  | Source
  | Include
deriving DecidableEq, Repr

/-- The literal token `#include` (`INCLUDE_PREFIX` in the source). -/
def includeToken : Str := ("#include").toList

/-- Index of the first `"` character, mirroring `line.find('"')`:
`none` plays the role of `std::string::npos`. -/
def findQ : Str → Option Nat
  | [] => none
  | c :: cs => if c = '"' then some 0 else (findQ cs).map (· + 1)

/-- Index of the last `"` character, mirroring `line.rfind('"')`. -/
def rfindQ (l : Str) : Option Nat :=
  (findQ l.reverse).map (fun j => l.length - 1 - j)

/-- Include-name extraction of `GLSLSourceProcessor::process` in
`src/include/glsl/glsl_source_processor.inl` (lines 113-122): the first
quote (`find`) and the last quote (`rfind`) delimit the name; when no
quote exists or the last quote is not strictly after the first, the
directive is invalid (`none`). -/
def extractName (line : Str) : Option Str :=
  match findQ line, rfindQ line with
  | some s, some e =>
      if e ≤ s then none
      else some ((line.drop (s + 1)).take (e - s - 1))
  | _, _ => none

/-- Include-name extraction of the parallel processor in
`src/glsl_source_processor.inl` (lines 132-148): the first quote and the
next quote after it delimit the name (`line.find('"', start + 1)`). -/
def extractNameNext (line : Str) : Option Str :=
  match findQ line with
  | none => none
  | some s =>
      match findQ (line.drop (s + 1)) with
      | none => none
      | some j => some ((line.drop (s + 1)).take j)

/-- Splitting into lines exactly as `std::ranges::split_view(source, '\n')`
iterates: an empty source yields no pieces at all, otherwise the text is
split at every newline, with a trailing empty piece when the text ends in
a newline. -/
def splitLinesAux : Str → List Str
  | [] => [[]]
  | c :: cs =>
      if c = '\n' then [] :: splitLinesAux cs
      else
        match splitLinesAux cs with
        | [] => [[c]]
        | l :: ls => (c :: l) :: ls

/-- Line splitting of a whole source text (see `splitLinesAux`; the outer
case realises that `split_view` of an empty range is empty). -/
def splitLines : Str → List Str
  | [] => []
  | c :: cs => splitLinesAux (c :: cs)

/-- The processor's long-lived state (`GLSLSourceProcessor` members
`sourceProvider_`, `glslVersion_`, `definitionMap_`): the `SourceProvider`
is the abstract capability `getSource(kind, name) -> optional<string>`,
and the definition table is an association list standing for the
`unordered_map` (its list order models the map's iteration order). -/
structure Processor where
  provider : SourceType → Str → Option Str
  glslVersion : Str
  definitionMap : List (Str × Str)

/-- The per-call mutable state threaded by reference through `process`:
the `alreadyIncludedFiles` set plus the sequence of messages passed to
the logging collaborator `log_`. -/
structure PState where
  seen : List Str
  logs : List Str
deriving DecidableEq, Repr

/-- Result of a (fuel-bounded) processing run: `ok` is a produced string
together with the final per-call state, `fail` is `std::nullopt` (with
the state at the moment of failure), and `outOfFuel` marks that the
modelling fuel ran out before the C++ recursion finished. -/
inductive PResult where
  | ok (out : Str) (st : PState)
  | fail (st : PState)
  | outOfFuel
deriving DecidableEq, Repr

/-- True exactly on `PResult.ok`. -/
def PResult.isOk : PResult → Bool
  | .ok _ _ => true
  | _ => false

/-- True exactly on `PResult.fail`. -/
def PResult.isFail : PResult → Bool
  | .fail _ => true
  | _ => false

/-- The diagnostic `std::format("Invalid include directive: {}", line)`
handed to the logging collaborator. -/
def invalidMsg (line : Str) : Str :=
  ("Invalid include directive: ").toList ++ line

/-- One `#define <name> <value>` line per definition-table entry, in table
order, each newline-terminated (the `definitionMap_` loop of `process`). -/
def defineLines : List (Str × Str) → Str
  | [] => []
  | (n, v) :: rest => ("#define ").toList ++ n ++ ' ' :: v ++ '\n' :: defineLines rest

/-- The top-level-only preamble: the configured version string, a newline,
then the define lines (the `TYPE == SourceType::Source` block of
`process`). -/
def preamble (P : Processor) : Str :=
  P.glslVersion ++ '\n' :: defineLines P.definitionMap

/-- The line loop of `GLSLSourceProcessor::process` fused with
`getShaderInclude`, from `src/include/glsl/glsl_source_processor.inl`
(lines 112-151).  `acc` is the `result` string built so far; each
processed line consumes one unit of fuel.  A line starting with
`#include` has its name extracted (invalid syntax logs a diagnostic and
fails the whole call); an already-seen name is skipped silently; a fresh
name is inserted into the seen-set and fetched with kind `Include`
(absence fails the whole call), and the fetched text is expanded
recursively with the same threaded state before its output is appended. -/
def run (P : Processor) : Nat → List Str → Str → PState → PResult
  | 0, lines, acc, st =>
      match lines with
      | [] => .ok acc st
      | _ :: _ => .outOfFuel
  | fuel + 1, lines, acc, st =>
      match lines with
      | [] => .ok acc st
      | line :: rest =>
          if includeToken.isPrefixOf line then
            match extractName line with
            | none => .fail ⟨st.seen, st.logs ++ [invalidMsg line]⟩
            | some name =>
                if name ∈ st.seen then
                  run P fuel rest acc st
                else
                  match P.provider .Include name with
                  | none => .fail ⟨name :: st.seen, st.logs⟩
                  | some src =>
                      match run P fuel (splitLines src) [] ⟨name :: st.seen, st.logs⟩ with
                      | .ok inc st2 => run P fuel rest (acc ++ inc) st2
                      | r => r
          else
            run P fuel rest (acc ++ line ++ ['\n']) st

/-- `GLSLSourceProcessor::getShaderSource` (lines 70-78): fetch the
top-level text with kind `Source` (absence short-circuits), then expand
it starting from a fresh, empty `alreadyIncludedFiles` set, with the
version/define preamble already emitted. -/
def getShaderSource (P : Processor) (fuel : Nat) (name : Str) : PResult :=
  match P.provider .Source name with
  | some src => run P fuel (splitLines src) (preamble P) ⟨[], []⟩
  | none => .fail ⟨[], []⟩

/-- Concatenation of lines, each newline-terminated: the output the line
loop produces for a stretch of lines that contain no include directive. -/
def joinLines : List Str → Str
  | [] => []
  | l :: ls => l ++ '\n' :: joinLines ls

/-- A well-formed include directive line for a given logical name,
`#include "<name>"`. -/
def inclLine (nm : Str) : Str :=
  ("#include ").toList ++ '"' :: (nm ++ ['"'])

/-! ### A family of providers with one missing include at an arbitrary depth

`chainProvider k` serves a top-level file `top` that includes `f`, which
includes `fx`, which includes `fxx`, and so on; the file at depth `k` is
absent.  It exercises claim C1 at every nesting depth. -/

/-- The `i`-th name of the include chain: the letter `f` followed by `i`
copies of `x` (distinct names have distinct lengths). -/
def chainName (i : Nat) : Str :=
  'f' :: List.replicate i 'x'

/-- Recover `i` from `chainName i`, and `none` on any other string. -/
def decodeChain : Str → Option Nat
  | 'f' :: cs => if cs.all (· = 'x') then some cs.length else none
  | _ => none

/-- The chain source provider with the include at depth `k` missing. -/
def chainProvider (k : Nat) : SourceType → Str → Option Str
  | .Source, n => if n = ("top").toList then some (inclLine (chainName 0)) else none
  | .Include, n =>
      match decodeChain n with
      | some i => if i < k then some (inclLine (chainName (i + 1))) else none
      | none => none

/-- A processor over the chain provider. -/
def chainProc (k : Nat) (v : Str) (d : List (Str × Str)) : Processor :=
  ⟨chainProvider k, v, d⟩

/-! ### A provider in which an included file re-includes the top-level file

The top-level file `T` includes `A`; `A` includes `T` back, and the
include-kind resolution of `T` yields the very same text as the top-level
file (the scenario of claim C9). -/

/-- The cyclic source provider: `T` includes `A`, `A` includes `T`. -/
def cycProvider : SourceType → Str → Option Str
  | .Source, n => if n = ("T").toList then some (inclLine (("A").toList)) else none
  | .Include, n =>
      if n = ("A").toList then some (inclLine (("T").toList))
      else if n = ("T").toList then some (inclLine (("A").toList))
      else none

/-- A processor over the cyclic provider. -/
def cycProc : Processor :=
  ⟨cycProvider, ("#version 450 core").toList, []⟩

/-! ### The definition table

`definitionMap_` is a `std::unordered_map<std::string, std::string>`,
modelled as an association list with unique keys; the operations below
follow `GLSLSourceProcessor::define`/`undef`/`undefAll`
(`src/glsl_source_processor.h`, lines 196-203). -/

/-- Lookup in the association list modelling the `unordered_map`. -/
def lookupDef : List (Str × Str) → Str → Option Str
  | [], _ => none
  | (m, w) :: rest, n => if m = n then some w else lookupDef rest n

/-- `definitionMap_.insert_or_assign(name, value)`: overwrite the value of
an existing key, insert otherwise.  This is the two-argument
`define(name, value)`; `value` stands for the `std::to_string`
stringification of the caller's argument (the conversion is total). -/
def insertOrAssign : List (Str × Str) → Str → Str → List (Str × Str)
  | [], n, v => [(n, v)]
  | (m, w) :: rest, n, v =>
      if m = n then (m, v) :: rest else (m, w) :: insertOrAssign rest n v

/-- `definitionMap_.emplace(name, "")`: the one-argument `define(name)`.
`unordered_map::emplace` inserts only when the key is absent; an existing
entry is left untouched. -/
def emplaceDef : List (Str × Str) → Str → List (Str × Str)
  | [], n => [(n, [])]
  | (m, w) :: rest, n =>
      if m = n then (m, w) :: rest else (m, w) :: emplaceDef rest n

/-- `definitionMap_.erase(name)`: `undef(name)`, a no-op when absent. -/
def eraseDef : List (Str × Str) → Str → List (Str × Str)
  | [], _ => []
  | (m, w) :: rest, n =>
      if m = n then rest else (m, w) :: eraseDef rest n

/-! ### Cache strategies over the raw reader

The raw reader `readString` is abstracted as a function
`Str → Option Str` from a path to its content (`none` on any open/read
failure).  Paths are the strings produced by the path policy. -/

/-- `SillyFileProvider::getString` (header line 95 and
`src/include/glsl/glsl_source_processor.inl` lines 34-36): delegate
straight to the raw reader. -/
def SillyFileProvider_getString (rd : Str → Option Str) (p : Str) : Option Str :=
  rd p

/-- `CachedFileProvider::getString` from
`src/include/glsl/glsl_source_processor.inl` (lines 38-50): serve a hit
from the by-path cache; on a miss read, and store only on success,
returning `none` unchanged on a failed read. -/
def CachedFileProvider_getString (rd : Str → Option Str) (cache : List (Str × Str))
    (p : Str) : Option Str × List (Str × Str) :=
  match lookupDef cache p with
  | some s => (some s, cache)
  | none =>
      match rd p with
      | none => (none, cache)
      | some s => (some s, cache ++ [(p, s)])

/-- A C++ value that may instead be the outcome of undefined behaviour
(here: dereferencing an empty `std::optional`). -/
inductive CppVal (α : Type) where
  | ub : CppVal α
  | val : α → CppVal α
deriving DecidableEq, Repr

/-- `CachedFileProvider::getSource` from the parallel variant
`src/glsl_source_processor.inl` (lines 68-80).  After a failed read the
code still executes `std::make_optional(std::move(*sourceString))` on the
empty optional `sourceString`: the dereference is undefined behaviour,
and the value returned is an engaged optional, not `nullopt`; this path
is modelled as `CppVal.ub`. -/
def CachedFileProviderAlt_getSource (rd : Str → Option Str) (cache : List (Str × Str))
    (name : Str) : CppVal (Option Str) × List (Str × Str) :=
  match lookupDef cache name with
  | some s => (.val (some s), cache)
  | none =>
      match rd name with
      | some s => (.val (some s), cache ++ [(name, s)])
      | none => (.ub, cache)

/-- `SmartCachedFileProvider::CacheKey` (`src/glsl_source_processor.h`,
lines 113-124): resolved path, last-write time
(`file_time_type::time_since_epoch().count()`, an integer) and byte size,
compared field-by-field by the defaulted `operator==` (structural
equality, which the derived `DecidableEq` realises). -/
structure CacheKey where
  filepath : Str
  lastWrite : Int
  fileSize : Nat
deriving DecidableEq, Repr

/-- The filesystem as seen by `SmartCachedFileProvider`: `meta` is the
metadata probe performed by the `CacheKey` constructor
(`last_write_time` and `file_size`; `none` models a thrown
`filesystem_error`), `read` the raw reader. -/
structure SmartFS where
  meta : Str → Option (Int × Nat)
  read : Str → Option Str

/-- `cache_.find(key)` on the `unordered_map` keyed by `CacheKey`: the
stored text of the first entry whose key is structurally equal. -/
def findEntry : List (CacheKey × Str) → CacheKey → Option Str
  | [], _ => none
  | (k, s) :: rest, key => if k = key then some s else findEntry rest key

/-- `SmartCachedFileProvider::getString`
(`src/include/glsl/glsl_source_processor.inl`, lines 52-68): build a
`CacheKey` by probing metadata — any `filesystem_error` is caught and
converted to `nullopt` — then serve a structural-key hit from the cache
without reading, otherwise read and store on success. -/
def SmartCachedFileProvider_getString (fs : SmartFS) (cache : List (CacheKey × Str))
    (p : Str) : Option Str × List (CacheKey × Str) :=
  match fs.meta p with
  | none => (none, cache)
  | some (t, sz) =>
      match findEntry cache ⟨p, t, sz⟩ with
      | some s => (some s, cache)
      | none =>
          match fs.read p with
          | none => (none, cache)
          | some s => (some s, cache ++ [(⟨p, t, sz⟩, s)])

/-! ### The public API as a state machine

For the frame claim (C10) the mutating surface of `GLSLSourceProcessor`
is modelled as a list of calls applied in order; `getShaderSource` is a
`const` member and contributes only an output. -/

/-- One public call on the processor object. -/
inductive ApiCall where
  | defineV (name value : Str)
  | defineE (name : Str)
  | undefN (name : Str)
  | undefAll
  | getShader (fuel : Nat) (name : Str)
deriving Repr

/-- Whether a call is a `getShaderSource` query. -/
def ApiCall.isGetShader : ApiCall → Bool
  | .getShader _ _ => true
  | _ => false

/-- The effect of one call on the definition table alone. -/
def tableStep (m : List (Str × Str)) : ApiCall → List (Str × Str)
  | .defineV n v => insertOrAssign m n v
  | .defineE n => emplaceDef m n
  | .undefN n => eraseDef m n
  | .undefAll => []
  | .getShader _ _ => m

/-- Apply a list of calls in order, collecting the outputs of the
`getShaderSource` queries; each mutator updates the definition table as
its member function does, and `getShaderSource` runs against the current
state. -/
def applyCalls (P : Processor) : List ApiCall → Processor × List PResult
  | [] => (P, [])
  | .getShader fuel n :: cs =>
      let r := applyCalls P cs
      (r.1, getShaderSource P fuel n :: r.2)
  | c :: cs =>
      applyCalls { P with definitionMap := tableStep P.definitionMap c } cs

/-! ### Concrete fixtures used by the witness theorems -/

/-- A processor whose provider serves one include-free top-level source,
with the definition table and version of the spec's worked example. -/
def procC2 : Processor :=
  ⟨fun t n =>
      if t = .Source ∧ n = ("main.glsl").toList
      then some (("void main(){}").toList) else none,
    ("#version 450 core").toList,
    [(("LIGHT_COUNT").toList, ("4").toList)]⟩

/-- A processor whose top-level source includes `"B"` twice. -/
def procC3 : Processor :=
  ⟨fun t n =>
      match t with
      | .Source =>
          if n = ("A.glsl").toList
          then some (("x\n#include \"B\"\ny\n#include \"B\"\nz").toList) else none
      | .Include =>
          if n = ("B").toList then some (("b1").toList) else none,
    ("#version 450 core").toList,
    []⟩

/-- A processor with a sibling duplicate: the top level includes `"C"`,
whose body includes `"B"`, and then the top level includes `"B"` again. -/
def procC3s : Processor :=
  ⟨fun t n =>
      match t with
      | .Source =>
          if n = ("A.glsl").toList
          then some (("x\n#include \"C\"\ny\n#include \"B\"\nz").toList) else none
      | .Include =>
          if n = ("C").toList then some (("c1\n#include \"B\"\nc2").toList)
          else if n = ("B").toList then some (("b1").toList)
          else none,
    ("#version 450 core").toList,
    []⟩

/-- A processor with a nested duplicate: the top level includes `"B"`,
then includes `"C"`, whose body re-includes `"B"`. -/
def procC3n : Processor :=
  ⟨fun t n =>
      match t with
      | .Source =>
          if n = ("A.glsl").toList
          then some (("x\n#include \"B\"\ny\n#include \"C\"\nz").toList) else none
      | .Include =>
          if n = ("C").toList then some (("c1\n#include \"B\"\nc2").toList)
          else if n = ("B").toList then some (("b1").toList)
          else none,
    ("#version 450 core").toList,
    []⟩

/-- A processor whose top-level source holds an unquoted include line. -/
def procC7 : Processor :=
  ⟨fun t n =>
      if t = .Source ∧ n = ("s.glsl").toList
      then some (("#include B.glsl").toList) else none,
    ("#version 450 core").toList,
    []⟩

/-- A filesystem for the invalidation-aware cache: path `a` has metadata
`(7, 3)`, every other probe throws, and every raw read fails. -/
def fsC8 : SmartFS :=
  ⟨fun p => if p = ("a").toList then some (7, 3) else none, fun _ => none⟩

/-- A cache holding text for path `a` under key `(a, 7, 3)`. -/
def cacheC8 : List (CacheKey × Str) :=
  [(⟨("a").toList, 7, 3⟩, ("abc").toList)]

/-- A processor with one table entry, for the frame witness. -/
def procC10 : Processor :=
  ⟨fun _ _ => some (("x").toList),
    ("#version 450 core").toList,
    [(("A").toList, ("1").toList)]⟩

/-- Two `getShaderSource` queries and no mutator. -/
def callsC10 : List ApiCall :=
  [.getShader 3 (("s").toList), .getShader 1 (("t").toList)]

/-! ## Helper lemmas about the line loop -/

theorem run_nil (P : Processor) (fuel : Nat) (acc : Str) (st : PState) :
    run P fuel [] acc st = .ok acc st := by
  cases fuel <;> rfl

theorem run_plain (P : Processor) (fuel : Nat) (line : Str) (rest : List Str)
    (acc : Str) (st : PState) (h : includeToken.isPrefixOf line = false) :
    run P (fuel + 1) (line :: rest) acc st =
      run P fuel rest (acc ++ line ++ ['\n']) st := by
  simp [run, h]

theorem run_badline (P : Processor) (fuel : Nat) (line : Str) (rest : List Str)
    (acc : Str) (st : PState) (hpre : includeToken.isPrefixOf line = true)
    (hex : extractName line = none) :
    run P (fuel + 1) (line :: rest) acc st =
      .fail ⟨st.seen, st.logs ++ [invalidMsg line]⟩ := by
  simp [run, hpre, hex]

theorem run_skip (P : Processor) (fuel : Nat) (line : Str) (rest : List Str)
    (acc : Str) (st : PState) (name : Str)
    (hpre : includeToken.isPrefixOf line = true)
    (hex : extractName line = some name) (hseen : name ∈ st.seen) :
    run P (fuel + 1) (line :: rest) acc st = run P fuel rest acc st := by
  simp [run, hpre, hex, hseen]

theorem run_missing (P : Processor) (fuel : Nat) (line : Str) (rest : List Str)
    (acc : Str) (st : PState) (name : Str)
    (hpre : includeToken.isPrefixOf line = true)
    (hex : extractName line = some name) (hseen : name ∉ st.seen)
    (hprov : P.provider .Include name = none) :
    run P (fuel + 1) (line :: rest) acc st = .fail ⟨name :: st.seen, st.logs⟩ := by
  simp [run, hpre, hex, hseen, hprov]

theorem run_include_ok (P : Processor) (fuel : Nat) (line : Str) (rest : List Str)
    (acc : Str) (st : PState) (name src inc : Str) (st2 : PState)
    (hpre : includeToken.isPrefixOf line = true)
    (hex : extractName line = some name) (hseen : name ∉ st.seen)
    (hprov : P.provider .Include name = some src)
    (hnest : run P fuel (splitLines src) [] ⟨name :: st.seen, st.logs⟩ = .ok inc st2) :
    run P (fuel + 1) (line :: rest) acc st = run P fuel rest (acc ++ inc) st2 := by
  simp [run, hpre, hex, hseen, hprov, hnest]

theorem run_include_fail (P : Processor) (fuel : Nat) (line : Str) (rest : List Str)
    (acc : Str) (st : PState) (name src : Str) (st2 : PState)
    (hpre : includeToken.isPrefixOf line = true)
    (hex : extractName line = some name) (hseen : name ∉ st.seen)
    (hprov : P.provider .Include name = some src)
    (hnest : run P fuel (splitLines src) [] ⟨name :: st.seen, st.logs⟩ = .fail st2) :
    run P (fuel + 1) (line :: rest) acc st = .fail st2 := by
  simp [run, hpre, hex, hseen, hprov, hnest]

theorem run_include_oof (P : Processor) (fuel : Nat) (line : Str) (rest : List Str)
    (acc : Str) (st : PState) (name src : Str)
    (hpre : includeToken.isPrefixOf line = true)
    (hex : extractName line = some name) (hseen : name ∉ st.seen)
    (hprov : P.provider .Include name = some src)
    (hnest : run P fuel (splitLines src) [] ⟨name :: st.seen, st.logs⟩ = .outOfFuel) :
    run P (fuel + 1) (line :: rest) acc st = .outOfFuel := by
  simp [run, hpre, hex, hseen, hprov, hnest]

theorem run_plainChunk (P : Processor) (L : List Str)
    (hL : ∀ l ∈ L, includeToken.isPrefixOf l = false) :
    ∀ (fuel g : Nat), fuel = g + L.length →
      ∀ (rest : List Str) (acc : Str) (st : PState),
        run P fuel (L ++ rest) acc st = run P g rest (acc ++ joinLines L) st := by
  induction L with
  | nil =>
      intro fuel g hf rest acc st
      simp only [List.length_nil, Nat.add_zero] at hf
      subst hf
      simp [joinLines]
  | cons l L' ih =>
      intro fuel g hf rest acc st
      obtain ⟨f, rfl⟩ : ∃ f, fuel = f + 1 := ⟨g + L'.length, by simp at hf; omega⟩
      have hf' : f = g + L'.length := by simp at hf; omega
      have hacc : (acc ++ l ++ ['\n']) ++ joinLines L' = acc ++ joinLines (l :: L') := by
        simp [joinLines, List.append_assoc]
      calc run P (f + 1) ((l :: L') ++ rest) acc st
          = run P f (L' ++ rest) (acc ++ l ++ ['\n']) st := by
            exact run_plain P f l (L' ++ rest) acc st (hL l (List.mem_cons_self l L'))
        _ = run P g rest ((acc ++ l ++ ['\n']) ++ joinLines L') st := by
            exact ih (fun x hx => hL x (List.mem_cons_of_mem l hx)) f g hf' rest _ st
        _ = run P g rest (acc ++ joinLines (l :: L')) st := by rw [hacc]

theorem run_noincAll (P : Processor) (L : List Str)
    (hL : ∀ l ∈ L, includeToken.isPrefixOf l = false)
    (fuel g : Nat) (hf : fuel = g + L.length) (acc : Str) (st : PState) :
    run P fuel L acc st = .ok (acc ++ joinLines L) st := by
  have h := run_plainChunk P L hL fuel g hf [] acc st
  rw [List.append_nil] at h
  rw [h, run_nil]

theorem run_seen_grows (P : Processor) :
    ∀ (fuel : Nat) (lines : List Str) (acc : Str) (st : PState) (out : Str) (st2 : PState),
      run P fuel lines acc st = .ok out st2 → ∀ x ∈ st.seen, x ∈ st2.seen := by
  intro fuel
  induction fuel with
  | zero =>
      intro lines acc st out st2 h x hx
      cases lines with
      | nil =>
          rw [run_nil] at h
          injection h with h1 h2
          rw [← h2]
          exact hx
      | cons l ls => simp [run] at h
  | succ f ih =>
      intro lines acc st out st2 h x hx
      cases lines with
      | nil =>
          rw [run_nil] at h
          injection h with h1 h2
          rw [← h2]
          exact hx
      | cons line rest =>
          by_cases hp : includeToken.isPrefixOf line = true
          · cases hex : extractName line with
            | none =>
                rw [run_badline P f line rest acc st hp hex] at h
                simp at h
            | some nm =>
                by_cases hs : nm ∈ st.seen
                · rw [run_skip P f line rest acc st nm hp hex hs] at h
                  exact ih rest acc st out st2 h x hx
                · cases hprov : P.provider .Include nm with
                  | none =>
                      rw [run_missing P f line rest acc st nm hp hex hs hprov] at h
                      simp at h
                  | some src =>
                      cases hnest : run P f (splitLines src) [] ⟨nm :: st.seen, st.logs⟩ with
                      | ok inc stm =>
                          rw [run_include_ok P f line rest acc st nm src inc stm
                            hp hex hs hprov hnest] at h
                          have hmid : x ∈ stm.seen :=
                            ih (splitLines src) [] ⟨nm :: st.seen, st.logs⟩ inc stm hnest x
                              (List.mem_cons_of_mem nm hx)
                          exact ih rest (acc ++ inc) stm out st2 h x hmid
                      | fail stm =>
                          rw [run_include_fail P f line rest acc st nm src stm
                            hp hex hs hprov hnest] at h
                          simp at h
                      | outOfFuel =>
                          rw [run_include_oof P f line rest acc st nm src
                            hp hex hs hprov hnest] at h
                          simp at h
          · have hp' : includeToken.isPrefixOf line = false := by
              cases hb : includeToken.isPrefixOf line with
              | false => rfl
              | true => exact absurd hb hp
            rw [run_plain P f line rest acc st hp'] at h
            exact ih rest (acc ++ line ++ ['\n']) st out st2 h x hx

theorem dedup_sibling (P : Processor) (fuel : Nat)
    (sname bnm cnm src csrc bsrc lineC lineB lineB' : Str)
    (L1 L2 L3 M1 M2 : List Str)
    (hsrc : P.provider .Source sname = some src)
    (hsplit : splitLines src = L1 ++ lineC :: (L2 ++ lineB :: L3))
    (hcprov : P.provider .Include cnm = some csrc)
    (hcsplit : splitLines csrc = M1 ++ lineB' :: M2)
    (hbprov : P.provider .Include bnm = some bsrc)
    (hCp : includeToken.isPrefixOf lineC = true)
    (hCe : extractName lineC = some cnm)
    (hBp : includeToken.isPrefixOf lineB = true)
    (hBe : extractName lineB = some bnm)
    (hB'p : includeToken.isPrefixOf lineB' = true)
    (hB'e : extractName lineB' = some bnm)
    (hne : bnm ≠ cnm)
    (hbn : ∀ l ∈ splitLines bsrc, includeToken.isPrefixOf l = false)
    (hL1 : ∀ l ∈ L1, includeToken.isPrefixOf l = false)
    (hL2 : ∀ l ∈ L2, includeToken.isPrefixOf l = false)
    (hL3 : ∀ l ∈ L3, includeToken.isPrefixOf l = false)
    (hM1 : ∀ l ∈ M1, includeToken.isPrefixOf l = false)
    (hM2 : ∀ l ∈ M2, includeToken.isPrefixOf l = false)
    (hfuel : fuel = L1.length + M1.length + (splitLines bsrc).length + M2.length
      + L2.length + L3.length + 3) :
    getShaderSource P fuel sname
      = .ok (preamble P ++ (joinLines L1 ++ (joinLines M1
          ++ (joinLines (splitLines bsrc) ++ (joinLines M2
          ++ (joinLines L2 ++ joinLines L3)))))) ⟨[bnm, cnm], []⟩ := by
  have hC : run P (M1.length + (((splitLines bsrc).length + M2.length + L2.length
          + L3.length + 1) + 1)) (M1 ++ lineB' :: M2) [] ⟨[cnm], []⟩
      = .ok ((([] ++ joinLines M1) ++ ([] ++ joinLines (splitLines bsrc)))
          ++ joinLines M2) ⟨[bnm, cnm], []⟩ := by
    calc run P (M1.length + (((splitLines bsrc).length + M2.length + L2.length
            + L3.length + 1) + 1)) (M1 ++ lineB' :: M2) [] ⟨[cnm], []⟩
        = run P (((splitLines bsrc).length + M2.length + L2.length + L3.length + 1) + 1)
            (lineB' :: M2) ([] ++ joinLines M1) ⟨[cnm], []⟩ :=
          run_plainChunk P M1 hM1 _ _ (by omega) _ _ _
      _ = run P ((splitLines bsrc).length + M2.length + L2.length + L3.length + 1) M2
            (([] ++ joinLines M1) ++ ([] ++ joinLines (splitLines bsrc)))
            ⟨[bnm, cnm], []⟩ := by
          exact run_include_ok P _ lineB' M2 _ ⟨[cnm], []⟩ bnm bsrc
            ([] ++ joinLines (splitLines bsrc)) ⟨[bnm, cnm], []⟩ hB'p hB'e
            (by simp [hne]) hbprov
            (run_noincAll P (splitLines bsrc) hbn _
              (M2.length + L2.length + L3.length + 1) (by omega) [] ⟨[bnm, cnm], []⟩)
      _ = .ok ((([] ++ joinLines M1) ++ ([] ++ joinLines (splitLines bsrc)))
            ++ joinLines M2) ⟨[bnm, cnm], []⟩ :=
          run_noincAll P M2 hM2 _ ((splitLines bsrc).length + L2.length + L3.length + 1)
            (by omega) _ _
  simp only [getShaderSource, hsrc, hsplit]
  calc run P fuel (L1 ++ lineC :: (L2 ++ lineB :: L3)) (preamble P) ⟨[], []⟩
      = run P ((M1.length + (((splitLines bsrc).length + M2.length + L2.length
            + L3.length + 1) + 1)) + 1) (lineC :: (L2 ++ lineB :: L3))
          (preamble P ++ joinLines L1) ⟨[], []⟩ :=
        run_plainChunk P L1 hL1 _ _ (by omega) _ _ _
    _ = run P (M1.length + (((splitLines bsrc).length + M2.length + L2.length
            + L3.length + 1) + 1)) (L2 ++ lineB :: L3)
          ((preamble P ++ joinLines L1)
            ++ ((([] ++ joinLines M1) ++ ([] ++ joinLines (splitLines bsrc)))
              ++ joinLines M2)) ⟨[bnm, cnm], []⟩ := by
        exact run_include_ok P _ lineC (L2 ++ lineB :: L3) _ ⟨[], []⟩ cnm csrc
          ((([] ++ joinLines M1) ++ ([] ++ joinLines (splitLines bsrc))) ++ joinLines M2)
          ⟨[bnm, cnm], []⟩ hCp hCe (by simp) hcprov (by rw [hcsplit]; exact hC)
    _ = run P ((M1.length + (splitLines bsrc).length + M2.length + L3.length + 1) + 1)
          (lineB :: L3)
          (((preamble P ++ joinLines L1)
            ++ ((([] ++ joinLines M1) ++ ([] ++ joinLines (splitLines bsrc)))
              ++ joinLines M2)) ++ joinLines L2) ⟨[bnm, cnm], []⟩ :=
        run_plainChunk P L2 hL2 _ _ (by omega) _ _ _
    _ = run P (M1.length + (splitLines bsrc).length + M2.length + L3.length + 1) L3
          (((preamble P ++ joinLines L1)
            ++ ((([] ++ joinLines M1) ++ ([] ++ joinLines (splitLines bsrc)))
              ++ joinLines M2)) ++ joinLines L2) ⟨[bnm, cnm], []⟩ :=
        run_skip P _ lineB L3 _ _ bnm hBp hBe (by simp)
    _ = .ok ((((preamble P ++ joinLines L1)
          ++ ((([] ++ joinLines M1) ++ ([] ++ joinLines (splitLines bsrc)))
            ++ joinLines M2)) ++ joinLines L2) ++ joinLines L3) ⟨[bnm, cnm], []⟩ :=
        run_noincAll P L3 hL3 _
          (M1.length + (splitLines bsrc).length + M2.length + 1) (by omega) _ _
    _ = .ok (preamble P ++ (joinLines L1 ++ (joinLines M1
          ++ (joinLines (splitLines bsrc) ++ (joinLines M2
          ++ (joinLines L2 ++ joinLines L3)))))) ⟨[bnm, cnm], []⟩ := by
        simp [List.append_assoc]

theorem dedup_nested (P : Processor) (fuel : Nat)
    (sname bnm cnm src csrc bsrc lineB lineC lineB' : Str)
    (L1 L2 L3 M1 M2 : List Str)
    (hsrc : P.provider .Source sname = some src)
    (hsplit : splitLines src = L1 ++ lineB :: (L2 ++ lineC :: L3))
    (hbprov : P.provider .Include bnm = some bsrc)
    (hcprov : P.provider .Include cnm = some csrc)
    (hcsplit : splitLines csrc = M1 ++ lineB' :: M2)
    (hBp : includeToken.isPrefixOf lineB = true)
    (hBe : extractName lineB = some bnm)
    (hCp : includeToken.isPrefixOf lineC = true)
    (hCe : extractName lineC = some cnm)
    (hB'p : includeToken.isPrefixOf lineB' = true)
    (hB'e : extractName lineB' = some bnm)
    (hne : bnm ≠ cnm)
    (hbn : ∀ l ∈ splitLines bsrc, includeToken.isPrefixOf l = false)
    (hL1 : ∀ l ∈ L1, includeToken.isPrefixOf l = false)
    (hL2 : ∀ l ∈ L2, includeToken.isPrefixOf l = false)
    (hL3 : ∀ l ∈ L3, includeToken.isPrefixOf l = false)
    (hM1 : ∀ l ∈ M1, includeToken.isPrefixOf l = false)
    (hM2 : ∀ l ∈ M2, includeToken.isPrefixOf l = false)
    (hfuel : fuel = L1.length + (splitLines bsrc).length + L2.length + M1.length
      + M2.length + L3.length + 3) :
    getShaderSource P fuel sname
      = .ok (preamble P ++ (joinLines L1 ++ (joinLines (splitLines bsrc)
          ++ (joinLines L2 ++ (joinLines M1 ++ (joinLines M2 ++ joinLines L3))))))
          ⟨[cnm, bnm], []⟩ := by
  have hC : run P (M1.length + (((splitLines bsrc).length + M2.length + L3.length) + 1))
        (M1 ++ lineB' :: M2) [] ⟨[cnm, bnm], []⟩
      = .ok (([] ++ joinLines M1) ++ joinLines M2) ⟨[cnm, bnm], []⟩ := by
    calc run P (M1.length + (((splitLines bsrc).length + M2.length + L3.length) + 1))
            (M1 ++ lineB' :: M2) [] ⟨[cnm, bnm], []⟩
        = run P (((splitLines bsrc).length + M2.length + L3.length) + 1) (lineB' :: M2)
            ([] ++ joinLines M1) ⟨[cnm, bnm], []⟩ :=
          run_plainChunk P M1 hM1 _ _ (by omega) _ _ _
      _ = run P ((splitLines bsrc).length + M2.length + L3.length) M2
            ([] ++ joinLines M1) ⟨[cnm, bnm], []⟩ :=
          run_skip P _ lineB' M2 _ _ bnm hB'p hB'e (by simp)
      _ = .ok (([] ++ joinLines M1) ++ joinLines M2) ⟨[cnm, bnm], []⟩ :=
          run_noincAll P M2 hM2 _ ((splitLines bsrc).length + L3.length) (by omega) _ _
  simp only [getShaderSource, hsrc, hsplit]
  calc run P fuel (L1 ++ lineB :: (L2 ++ lineC :: L3)) (preamble P) ⟨[], []⟩
      = run P ((L2.length + ((M1.length + (((splitLines bsrc).length + M2.length
            + L3.length) + 1)) + 1)) + 1) (lineB :: (L2 ++ lineC :: L3))
          (preamble P ++ joinLines L1) ⟨[], []⟩ :=
        run_plainChunk P L1 hL1 _ _ (by omega) _ _ _
    _ = run P (L2.length + ((M1.length + (((splitLines bsrc).length + M2.length
            + L3.length) + 1)) + 1)) (L2 ++ lineC :: L3)
          ((preamble P ++ joinLines L1) ++ ([] ++ joinLines (splitLines bsrc)))
          ⟨[bnm], []⟩ := by
        exact run_include_ok P _ lineB (L2 ++ lineC :: L3) _ ⟨[], []⟩ bnm bsrc
          ([] ++ joinLines (splitLines bsrc)) ⟨[bnm], []⟩ hBp hBe (by simp) hbprov
          (run_noincAll P (splitLines bsrc) hbn _
            (L2.length + ((M1.length + (((splitLines bsrc).length + M2.length
              + L3.length) + 1)) + 1) - (splitLines bsrc).length) (by omega) []
            ⟨[bnm], []⟩)
    _ = run P ((M1.length + (((splitLines bsrc).length + M2.length + L3.length) + 1)) + 1)
          (lineC :: L3)
          (((preamble P ++ joinLines L1) ++ ([] ++ joinLines (splitLines bsrc)))
            ++ joinLines L2) ⟨[bnm], []⟩ :=
        run_plainChunk P L2 hL2 _ _ (by omega) _ _ _
    _ = run P (M1.length + (((splitLines bsrc).length + M2.length + L3.length) + 1)) L3
          ((((preamble P ++ joinLines L1) ++ ([] ++ joinLines (splitLines bsrc)))
            ++ joinLines L2) ++ (([] ++ joinLines M1) ++ joinLines M2))
          ⟨[cnm, bnm], []⟩ := by
        exact run_include_ok P _ lineC L3 _ ⟨[bnm], []⟩ cnm csrc
          (([] ++ joinLines M1) ++ joinLines M2) ⟨[cnm, bnm], []⟩ hCp hCe
          (by simp [Ne.symm hne]) hcprov (by rw [hcsplit]; exact hC)
    _ = .ok (((((preamble P ++ joinLines L1) ++ ([] ++ joinLines (splitLines bsrc)))
          ++ joinLines L2) ++ (([] ++ joinLines M1) ++ joinLines M2)) ++ joinLines L3)
          ⟨[cnm, bnm], []⟩ :=
        run_noincAll P L3 hL3 _
          (M1.length + (splitLines bsrc).length + M2.length + 1) (by omega) _ _
    _ = .ok (preamble P ++ (joinLines L1 ++ (joinLines (splitLines bsrc)
          ++ (joinLines L2 ++ (joinLines M1 ++ (joinLines M2 ++ joinLines L3))))))
          ⟨[cnm, bnm], []⟩ := by
        simp [List.append_assoc]

/-! ## Helper lemmas about quote search and name extraction -/

theorem findQ_not_mem (l : Str) (h : '"' ∉ l) : findQ l = none := by
  induction l with
  | nil => rfl
  | cons c cs ih =>
      have hc : ¬ c = '"' := fun hh => h (hh ▸ List.mem_cons_self c cs)
      have ht : '"' ∉ cs := fun hm => h (List.mem_cons_of_mem _ hm)
      simp [findQ, hc, ih ht]

theorem findQ_append_not_mem (a : Str) (h : '"' ∉ a) (b : Str) :
    findQ (a ++ b) = (findQ b).map (· + a.length) := by
  induction a with
  | nil => cases hb : findQ b <;> simp [hb]
  | cons c cs ih =>
      have hc : ¬ c = '"' := fun hh => h (hh ▸ List.mem_cons_self c cs)
      have ht : '"' ∉ cs := fun hm => h (List.mem_cons_of_mem _ hm)
      rw [List.cons_append, findQ]
      rw [if_neg hc, ih ht]
      cases findQ b <;> simp <;> omega

theorem findQ_cons_quote (l : Str) : findQ ('"' :: l) = some 0 := by
  simp [findQ]

theorem drop_pre_quote (pre rest : Str) :
    (pre ++ '"' :: rest).drop (pre.length + 1) = rest := by
  have h1 : pre ++ '"' :: rest = (pre ++ ['"']) ++ rest := by simp
  have h2 : pre.length + 1 = (pre ++ ['"']).length := by simp
  rw [h1, h2, List.drop_left]

theorem extractName_found (pre mid suf : Str)
    (hp : '"' ∉ pre) (hm : '"' ∉ mid) (hs : '"' ∉ suf) :
    extractName (pre ++ '"' :: (mid ++ '"' :: suf)) = some mid := by
  have hfind : findQ (pre ++ '"' :: (mid ++ '"' :: suf)) = some pre.length := by
    rw [findQ_append_not_mem pre hp, findQ_cons_quote]
    simp
  have hrev : (pre ++ '"' :: (mid ++ '"' :: suf)).reverse
      = suf.reverse ++ '"' :: (mid.reverse ++ '"' :: pre.reverse) := by
    simp
  have hsr : '"' ∉ suf.reverse := by simpa using hs
  have hrfind : rfindQ (pre ++ '"' :: (mid ++ '"' :: suf))
      = some (pre.length + mid.length + 1) := by
    rw [rfindQ, hrev, findQ_append_not_mem suf.reverse hsr, findQ_cons_quote]
    simp
    omega
  have hle : ¬ (pre.length + mid.length + 1 ≤ pre.length) := by omega
  simp only [extractName, hfind, hrfind, if_neg hle, drop_pre_quote]
  have hlen : pre.length + mid.length + 1 - pre.length - 1 = mid.length := by omega
  rw [hlen]
  have hsplit : mid ++ '"' :: suf = mid ++ ('"' :: suf) := rfl
  rw [hsplit, List.take_left]

theorem extractName_one (pre suf : Str) (hp : '"' ∉ pre) (hs : '"' ∉ suf) :
    extractName (pre ++ '"' :: suf) = none := by
  have hfind : findQ (pre ++ '"' :: suf) = some pre.length := by
    rw [findQ_append_not_mem pre hp, findQ_cons_quote]
    simp
  have hsr : '"' ∉ suf.reverse := by simpa using hs
  have hrev : (pre ++ '"' :: suf).reverse = suf.reverse ++ '"' :: pre.reverse := by
    simp
  have hrfind : rfindQ (pre ++ '"' :: suf) = some pre.length := by
    rw [rfindQ, hrev, findQ_append_not_mem suf.reverse hsr, findQ_cons_quote]
    simp
  simp [extractName, hfind, hrfind]

theorem extractName_noQ (line : Str) (h : '"' ∉ line) : extractName line = none := by
  rw [extractName, findQ_not_mem line h]

theorem extractNameNext_found (pre mid suf : Str) (hp : '"' ∉ pre) (hm : '"' ∉ mid) :
    extractNameNext (pre ++ '"' :: (mid ++ '"' :: suf)) = some mid := by
  have hfind : findQ (pre ++ '"' :: (mid ++ '"' :: suf)) = some pre.length := by
    rw [findQ_append_not_mem pre hp, findQ_cons_quote]
    simp
  simp only [extractNameNext, hfind, drop_pre_quote, findQ_append_not_mem mid hm,
    findQ_cons_quote]
  simp [List.take_left]

/-! ## Helper lemmas about include-directive lines -/

theorem isPrefixOf_append_self (l t : Str) : l.isPrefixOf (l ++ t) = true := by
  rw [List.isPrefixOf_iff_prefix]
  exact ⟨t, rfl⟩

theorem inclLine_starts (nm : Str) : includeToken.isPrefixOf (inclLine nm) = true := by
  have h : inclLine nm = includeToken ++ (' ' :: '"' :: (nm ++ ['"'])) := rfl
  rw [h]
  exact isPrefixOf_append_self includeToken _

theorem extractName_inclLine (nm : Str) (h : '"' ∉ nm) :
    extractName (inclLine nm) = some nm := by
  have h9 : '"' ∉ ("#include ").toList := by decide
  have hs : '"' ∉ ([] : Str) := by simp
  have := extractName_found (("#include ").toList) nm [] h9 h hs
  simpa [inclLine] using this

theorem splitLinesAux_not_mem (l : Str) (h : '\n' ∉ l) : splitLinesAux l = [l] := by
  induction l with
  | nil => rfl
  | cons c cs ih =>
      have hc : ¬ c = '\n' := fun hh => h (by rw [hh]; exact List.mem_cons_self _ _)
      have ht : '\n' ∉ cs := fun hm => h (List.mem_cons_of_mem _ hm)
      rw [splitLinesAux, if_neg hc, ih ht]

theorem splitLines_cons (c : Char) (cs : Str) (h : '\n' ∉ c :: cs) :
    splitLines (c :: cs) = [c :: cs] := by
  rw [splitLines]
  exact splitLinesAux_not_mem (c :: cs) h

theorem not_nl_inclLine (nm : Str) (h : '\n' ∉ nm) : '\n' ∉ inclLine nm := by
  intro hmem
  exact h (by simpa [inclLine] using hmem)

theorem splitLines_inclLine (nm : Str) (h : '\n' ∉ nm) :
    splitLines (inclLine nm) = [inclLine nm] := by
  have hshape : inclLine nm = '#' :: (("include ").toList ++ '"' :: (nm ++ ['"'])) := rfl
  rw [hshape]
  apply splitLines_cons
  rw [← hshape]
  exact not_nl_inclLine nm h

/-! ## Helper lemmas about the chain provider -/

theorem chainName_length (i : Nat) : (chainName i).length = i + 1 := by
  simp [chainName]

theorem chainName_not_mem (i : Nat) (x : Char) (hf : ¬ x = 'f') (hx : ¬ x = 'x') :
    x ∉ chainName i := by
  intro hmem
  rcases List.mem_cons.mp hmem with h1 | h2
  · exact hf h1
  · exact hx (List.mem_replicate.mp h2).2

theorem decodeChain_chainName (i : Nat) : decodeChain (chainName i) = some i := by
  have hall : (List.replicate i 'x').all (fun c => decide (c = 'x')) = true := by
    simp [List.all_eq_true, List.mem_replicate]
  show (if (List.replicate i 'x').all (· = 'x')
      then some (List.replicate i 'x').length else none) = some i
  rw [hall]
  simp

theorem chain_never_ok (k : Nat) (v : Str) (d : List (Str × Str)) :
    ∀ (fuel i : Nat) (acc : Str) (st : PState),
      (∀ m, i ≤ m → chainName m ∉ st.seen) →
      (run (chainProc k v d) fuel [inclLine (chainName i)] acc st).isOk = false := by
  intro fuel
  induction fuel with
  | zero => intro i acc st hfresh; rfl
  | succ f ih =>
      intro i acc st hfresh
      have hq : '"' ∉ chainName i := chainName_not_mem i '"' (by decide) (by decide)
      have hpre := inclLine_starts (chainName i)
      have hex := extractName_inclLine (chainName i) hq
      have hseen : chainName i ∉ st.seen := hfresh i (Nat.le_refl i)
      by_cases hik : i < k
      · have hprov : (chainProc k v d).provider .Include (chainName i)
            = some (inclLine (chainName (i + 1))) := by
          simp [chainProc, chainProvider, decodeChain_chainName, hik]
        have hnl : '\n' ∉ chainName (i + 1) :=
          chainName_not_mem (i + 1) '\n' (by decide) (by decide)
        have hsplit := splitLines_inclLine (chainName (i + 1)) hnl
        cases hnest : run (chainProc k v d) f [inclLine (chainName (i + 1))] []
            ⟨chainName i :: st.seen, st.logs⟩ with
        | ok inc st2 =>
            have hfresh' : ∀ m, i + 1 ≤ m → chainName m ∉ chainName i :: st.seen := by
              intro m hm hmem
              rcases List.mem_cons.mp hmem with h1 | h2
              · have hlen := congrArg List.length h1
                rw [chainName_length, chainName_length] at hlen
                omega
              · exact hfresh m (by omega) h2
            have hih := ih (i + 1) [] ⟨chainName i :: st.seen, st.logs⟩ hfresh'
            rw [hnest] at hih
            simp [PResult.isOk] at hih
        | fail st2 =>
            rw [run_include_fail (chainProc k v d) f (inclLine (chainName i)) [] acc st
              (chainName i) (inclLine (chainName (i + 1))) st2 hpre hex hseen hprov
              (by rw [hsplit]; exact hnest)]
            rfl
        | outOfFuel =>
            rw [run_include_oof (chainProc k v d) f (inclLine (chainName i)) [] acc st
              (chainName i) (inclLine (chainName (i + 1))) hpre hex hseen hprov
              (by rw [hsplit]; exact hnest)]
            rfl
      · have hprov : (chainProc k v d).provider .Include (chainName i) = none := by
          simp [chainProc, chainProvider, decodeChain_chainName, hik]
        rw [run_missing (chainProc k v d) f (inclLine (chainName i)) [] acc st
          (chainName i) hpre hex hseen hprov]
        rfl

theorem chain_fail (k : Nat) (v : Str) (d : List (Str × Str)) :
    ∀ (n i : Nat) (acc : Str) (st : PState),
      k ≤ i + n →
      (∀ m, i ≤ m → chainName m ∉ st.seen) →
      (run (chainProc k v d) (n + 1) [inclLine (chainName i)] acc st).isFail = true := by
  intro n
  induction n with
  | zero =>
      intro i acc st hk hfresh
      have hq : '"' ∉ chainName i := chainName_not_mem i '"' (by decide) (by decide)
      have hik : ¬ i < k := by omega
      have hprov : (chainProc k v d).provider .Include (chainName i) = none := by
        simp [chainProc, chainProvider, decodeChain_chainName, hik]
      rw [run_missing (chainProc k v d) 0 (inclLine (chainName i)) [] acc st
        (chainName i) (inclLine_starts (chainName i)) (extractName_inclLine (chainName i) hq)
        (hfresh i (Nat.le_refl i)) hprov]
      rfl
  | succ n ih =>
      intro i acc st hk hfresh
      have hq : '"' ∉ chainName i := chainName_not_mem i '"' (by decide) (by decide)
      have hpre := inclLine_starts (chainName i)
      have hex := extractName_inclLine (chainName i) hq
      have hseen : chainName i ∉ st.seen := hfresh i (Nat.le_refl i)
      by_cases hik : i < k
      · have hprov : (chainProc k v d).provider .Include (chainName i)
            = some (inclLine (chainName (i + 1))) := by
          simp [chainProc, chainProvider, decodeChain_chainName, hik]
        have hnl : '\n' ∉ chainName (i + 1) :=
          chainName_not_mem (i + 1) '\n' (by decide) (by decide)
        have hsplit := splitLines_inclLine (chainName (i + 1)) hnl
        have hfresh' : ∀ m, i + 1 ≤ m → chainName m ∉ chainName i :: st.seen := by
          intro m hm hmem
          rcases List.mem_cons.mp hmem with h1 | h2
          · have hlen := congrArg List.length h1
            rw [chainName_length, chainName_length] at hlen
            omega
          · exact hfresh m (by omega) h2
        have hih := ih (i + 1) [] ⟨chainName i :: st.seen, st.logs⟩ (by omega) hfresh'
        cases hnest : run (chainProc k v d) (n + 1) [inclLine (chainName (i + 1))] []
            ⟨chainName i :: st.seen, st.logs⟩ with
        | ok inc st2 => rw [hnest] at hih; simp [PResult.isFail] at hih
        | fail st2 =>
            rw [run_include_fail (chainProc k v d) (n + 1) (inclLine (chainName i)) [] acc st
              (chainName i) (inclLine (chainName (i + 1))) st2 hpre hex hseen hprov
              (by rw [hsplit]; exact hnest)]
            rfl
        | outOfFuel => rw [hnest] at hih; simp [PResult.isFail] at hih
      · have hprov : (chainProc k v d).provider .Include (chainName i) = none := by
          simp [chainProc, chainProvider, decodeChain_chainName, hik]
        rw [run_missing (chainProc k v d) (n + 1) (inclLine (chainName i)) [] acc st
          (chainName i) hpre hex hseen hprov]
        rfl

theorem chain_top (k : Nat) (v : Str) (d : List (Str × Str)) (fuel : Nat) :
    getShaderSource (chainProc k v d) fuel (("top").toList)
      = run (chainProc k v d) fuel [inclLine (chainName 0)]
          (preamble (chainProc k v d)) ⟨[], []⟩ := by
  have hprov : (chainProc k v d).provider .Source (("top").toList)
      = some (inclLine (chainName 0)) := by
    simp [chainProc, chainProvider]
  have hnl : '\n' ∉ chainName 0 := chainName_not_mem 0 '\n' (by decide) (by decide)
  simp only [getShaderSource, hprov, splitLines_inclLine (chainName 0) hnl]

/-! ## Claim theorems -/

/-- C1: a missing include anywhere in the expansion tree aborts the whole
`getShaderSource` call with absence and no partial output.  First, for
every processor: an include line naming a fresh file the provider cannot
serve makes the line loop fail at once, and a failing nested expansion
makes the enclosing loop fail, discarding the output accumulated so far.
Second, over the chain provider family, whose single missing file sits at
nesting depth `k`: the top-level call is never `ok` at any fuel, and with
fuel `k + 1` it reaches the missing file and fails (absence). -/
theorem C1_missing_include_aborts (k : Nat) (v : Str) (d : List (Str × Str)) :
    (∀ (P : Processor) (fuel : Nat) (line : Str) (rest : List Str) (acc : Str)
        (st : PState) (nm : Str),
        includeToken.isPrefixOf line = true → extractName line = some nm →
        nm ∉ st.seen → P.provider .Include nm = none →
        run P (fuel + 1) (line :: rest) acc st = .fail ⟨nm :: st.seen, st.logs⟩) ∧
    (∀ (P : Processor) (fuel : Nat) (line : Str) (rest : List Str) (acc : Str)
        (st : PState) (nm src : Str) (st2 : PState),
        includeToken.isPrefixOf line = true → extractName line = some nm →
        nm ∉ st.seen → P.provider .Include nm = some src →
        run P fuel (splitLines src) [] ⟨nm :: st.seen, st.logs⟩ = .fail st2 →
        run P (fuel + 1) (line :: rest) acc st = .fail st2) ∧
    (∀ fuel : Nat,
        (getShaderSource (chainProc k v d) fuel (("top").toList)).isOk = false) ∧
    (getShaderSource (chainProc k v d) (k + 1) (("top").toList)).isFail = true := by
  refine ⟨?_, ?_, ?_, ?_⟩
  · intro P fuel line rest acc st nm h1 h2 h3 h4
    exact run_missing P fuel line rest acc st nm h1 h2 h3 h4
  · intro P fuel line rest acc st nm src st2 h1 h2 h3 h4 h5
    exact run_include_fail P fuel line rest acc st nm src st2 h1 h2 h3 h4 h5
  · intro fuel
    rw [chain_top]
    exact chain_never_ok k v d fuel 0 _ _ (fun m _ => by simp)
  · rw [chain_top]
    exact chain_fail k v d k 0 _ _ (by omega) (fun m _ => by simp)

/-- Witness for C1: a concrete immediately-missing include fails, and the
depth-two chain is never `ok` and fails at fuel `3`. -/
theorem C1_missing_include_aborts_witness :
    (run (chainProc 0 [] []) 1 [inclLine (("B").toList)] [] ⟨[], []⟩
        = .fail ⟨[("B").toList], []⟩) ∧
    ((getShaderSource (chainProc 2 (("#version 450 core").toList) []) 5
        (("top").toList)).isOk = false) ∧
    ((getShaderSource (chainProc 2 (("#version 450 core").toList) []) 3
        (("top").toList)).isFail = true) := by
  refine ⟨?_, ?_, ?_⟩
  · exact (C1_missing_include_aborts 0 [] []).1 (chainProc 0 [] []) 0
      (inclLine (("B").toList)) [] [] ⟨[], []⟩ (("B").toList)
      (by decide) (by decide) (by simp) (by decide)
  · exact (C1_missing_include_aborts 2 (("#version 450 core").toList) []).2.2.1 5
  · exact (C1_missing_include_aborts 2 (("#version 450 core").toList) []).2.2.2

/-- C2: on a source with no include lines, `getShaderSource` returns
exactly the version line, the define lines in table order, then every
original line newline-terminated; the witness instantiates the spec's
worked example. -/
theorem C2_no_include_output (P : Processor) (fuel : Nat) (sname src : Str)
    (h1 : P.provider .Source sname = some src)
    (h2 : ∀ l ∈ splitLines src, includeToken.isPrefixOf l = false)
    (h3 : (splitLines src).length ≤ fuel) :
    getShaderSource P fuel sname
      = .ok (preamble P ++ joinLines (splitLines src)) ⟨[], []⟩ := by
  simp only [getShaderSource, h1]
  exact run_noincAll P (splitLines src) h2 fuel (fuel - (splitLines src).length)
    (by omega) (preamble P) ⟨[], []⟩

/-- Witness for C2: table `LIGHT_COUNT = 4`, version `#version 450 core`
and source `void main(){}` produce the exact blob the spec displays. -/
theorem C2_no_include_output_witness :
    getShaderSource procC2 1 (("main.glsl").toList)
      = .ok (("#version 450 core\n#define LIGHT_COUNT 4\nvoid main(){}\n").toList)
          ⟨[], []⟩ := by
  have h := C2_no_include_output procC2 1 (("main.glsl").toList)
    (("void main(){}").toList) (by decide) (by decide) (by decide)
  exact h.trans (by decide)

/-- The top-level duplicate scenario: a source of the shape
`L1, line1, L2, line2, L3` where both directive lines extract the same
name has the included text emitted exactly once, at the first
occurrence. -/
theorem dedup_toplevel (P : Processor) (fuel : Nat)
    (sname inm src bsrc line1 line2 : Str) (L1 L2 L3 : List Str)
    (hsrc : P.provider .Source sname = some src)
    (hsplit : splitLines src = L1 ++ line1 :: (L2 ++ line2 :: L3))
    (h1p : includeToken.isPrefixOf line1 = true)
    (h1e : extractName line1 = some inm)
    (h2p : includeToken.isPrefixOf line2 = true)
    (h2e : extractName line2 = some inm)
    (hb : P.provider .Include inm = some bsrc)
    (hbn : ∀ l ∈ splitLines bsrc, includeToken.isPrefixOf l = false)
    (hL1 : ∀ l ∈ L1, includeToken.isPrefixOf l = false)
    (hL2 : ∀ l ∈ L2, includeToken.isPrefixOf l = false)
    (hL3 : ∀ l ∈ L3, includeToken.isPrefixOf l = false)
    (hfuel : fuel = L1.length + (splitLines bsrc).length + L2.length + L3.length + 2) :
    getShaderSource P fuel sname
      = .ok (preamble P ++ (joinLines L1 ++ (joinLines (splitLines bsrc)
          ++ (joinLines L2 ++ joinLines L3)))) ⟨[inm], []⟩ := by
  simp only [getShaderSource, hsrc, hsplit]
  calc run P fuel (L1 ++ line1 :: (L2 ++ line2 :: L3)) (preamble P) ⟨[], []⟩
      = run P (((splitLines bsrc).length + L2.length + L3.length + 1) + 1)
          (line1 :: (L2 ++ line2 :: L3)) (preamble P ++ joinLines L1) ⟨[], []⟩ :=
        run_plainChunk P L1 hL1 fuel _ (by omega) _ _ _
    _ = run P ((splitLines bsrc).length + L2.length + L3.length + 1) (L2 ++ line2 :: L3)
          ((preamble P ++ joinLines L1) ++ joinLines (splitLines bsrc)) ⟨[inm], []⟩ := by
        exact run_include_ok P _ line1 _ _ ⟨[], []⟩ inm bsrc
          ([] ++ joinLines (splitLines bsrc)) ⟨[inm], []⟩ h1p h1e (by simp) hb
          (run_noincAll P (splitLines bsrc) hbn _ (L2.length + L3.length + 1)
            (by omega) [] ⟨[inm], []⟩)
    _ = run P ((splitLines bsrc).length + L3.length + 1) (line2 :: L3)
          (((preamble P ++ joinLines L1) ++ joinLines (splitLines bsrc))
            ++ joinLines L2) ⟨[inm], []⟩ :=
        run_plainChunk P L2 hL2 _ _ (by omega) _ _ _
    _ = run P ((splitLines bsrc).length + L3.length) L3
          (((preamble P ++ joinLines L1) ++ joinLines (splitLines bsrc))
            ++ joinLines L2) ⟨[inm], []⟩ :=
        run_skip P _ line2 L3 _ _ inm h2p h2e (by simp)
    _ = .ok ((((preamble P ++ joinLines L1) ++ joinLines (splitLines bsrc))
          ++ joinLines L2) ++ joinLines L3) ⟨[inm], []⟩ :=
        run_noincAll P L3 hL3 _ (splitLines bsrc).length (by omega) _ _
    _ = .ok (preamble P ++ (joinLines L1 ++ (joinLines (splitLines bsrc)
          ++ (joinLines L2 ++ joinLines L3)))) ⟨[inm], []⟩ := by
        simp [List.append_assoc]

/-- C3: within one top-level call, every logical include name is expanded
at most once, and every subsequent `#include` occurrence of that name
anywhere in the expansion tree is silently skipped.  Conjuncts: (1) at
every level of the tree — every level executes this same line loop — an
include directive whose extracted name is already in the threaded
seen-set is skipped: the run continues exactly as if the line were
absent, so no output, no log, no state change and no error; (2) names
once in the seen-set persist through any successful run, across every
branch boundary, because the set is threaded and never copied per
branch; (3) sibling duplicates: when a file is first included from
INSIDE another included file and the top level re-includes it afterwards,
the nested insertion persists and the later top-level occurrence is
skipped, the content appearing once, at the nested first occurrence;
(4) nested duplicates: when the top level includes a file and a later
include's body re-includes it by name, the occurrence inside that body is
skipped; (5) top-level duplicates: a file included twice by the same
source is emitted once, at the first occurrence. -/
theorem C3_duplicate_include_skipped :
    (∀ (P : Processor) (fuel : Nat) (line : Str) (rest : List Str) (acc : Str)
        (st : PState) (nm : Str),
        includeToken.isPrefixOf line = true → extractName line = some nm →
        nm ∈ st.seen →
        run P (fuel + 1) (line :: rest) acc st = run P fuel rest acc st) ∧
    (∀ (P : Processor) (fuel : Nat) (lines : List Str) (acc : Str) (st : PState)
        (out : Str) (st2 : PState),
        run P fuel lines acc st = .ok out st2 → ∀ x ∈ st.seen, x ∈ st2.seen) ∧
    (∀ (P : Processor) (fuel : Nat)
        (sname bnm cnm src csrc bsrc lineC lineB lineB' : Str)
        (L1 L2 L3 M1 M2 : List Str),
        P.provider .Source sname = some src →
        splitLines src = L1 ++ lineC :: (L2 ++ lineB :: L3) →
        P.provider .Include cnm = some csrc →
        splitLines csrc = M1 ++ lineB' :: M2 →
        P.provider .Include bnm = some bsrc →
        includeToken.isPrefixOf lineC = true → extractName lineC = some cnm →
        includeToken.isPrefixOf lineB = true → extractName lineB = some bnm →
        includeToken.isPrefixOf lineB' = true → extractName lineB' = some bnm →
        bnm ≠ cnm →
        (∀ l ∈ splitLines bsrc, includeToken.isPrefixOf l = false) →
        (∀ l ∈ L1, includeToken.isPrefixOf l = false) →
        (∀ l ∈ L2, includeToken.isPrefixOf l = false) →
        (∀ l ∈ L3, includeToken.isPrefixOf l = false) →
        (∀ l ∈ M1, includeToken.isPrefixOf l = false) →
        (∀ l ∈ M2, includeToken.isPrefixOf l = false) →
        fuel = L1.length + M1.length + (splitLines bsrc).length + M2.length
          + L2.length + L3.length + 3 →
        getShaderSource P fuel sname
          = .ok (preamble P ++ (joinLines L1 ++ (joinLines M1
              ++ (joinLines (splitLines bsrc) ++ (joinLines M2
              ++ (joinLines L2 ++ joinLines L3)))))) ⟨[bnm, cnm], []⟩) ∧
    (∀ (P : Processor) (fuel : Nat)
        (sname bnm cnm src csrc bsrc lineB lineC lineB' : Str)
        (L1 L2 L3 M1 M2 : List Str),
        P.provider .Source sname = some src →
        splitLines src = L1 ++ lineB :: (L2 ++ lineC :: L3) →
        P.provider .Include bnm = some bsrc →
        P.provider .Include cnm = some csrc →
        splitLines csrc = M1 ++ lineB' :: M2 →
        includeToken.isPrefixOf lineB = true → extractName lineB = some bnm →
        includeToken.isPrefixOf lineC = true → extractName lineC = some cnm →
        includeToken.isPrefixOf lineB' = true → extractName lineB' = some bnm →
        bnm ≠ cnm →
        (∀ l ∈ splitLines bsrc, includeToken.isPrefixOf l = false) →
        (∀ l ∈ L1, includeToken.isPrefixOf l = false) →
        (∀ l ∈ L2, includeToken.isPrefixOf l = false) →
        (∀ l ∈ L3, includeToken.isPrefixOf l = false) →
        (∀ l ∈ M1, includeToken.isPrefixOf l = false) →
        (∀ l ∈ M2, includeToken.isPrefixOf l = false) →
        fuel = L1.length + (splitLines bsrc).length + L2.length + M1.length
          + M2.length + L3.length + 3 →
        getShaderSource P fuel sname
          = .ok (preamble P ++ (joinLines L1 ++ (joinLines (splitLines bsrc)
              ++ (joinLines L2 ++ (joinLines M1 ++ (joinLines M2 ++ joinLines L3))))))
              ⟨[cnm, bnm], []⟩) ∧
    (∀ (P : Processor) (fuel : Nat) (sname inm src bsrc line1 line2 : Str)
        (L1 L2 L3 : List Str),
        P.provider .Source sname = some src →
        splitLines src = L1 ++ line1 :: (L2 ++ line2 :: L3) →
        includeToken.isPrefixOf line1 = true → extractName line1 = some inm →
        includeToken.isPrefixOf line2 = true → extractName line2 = some inm →
        P.provider .Include inm = some bsrc →
        (∀ l ∈ splitLines bsrc, includeToken.isPrefixOf l = false) →
        (∀ l ∈ L1, includeToken.isPrefixOf l = false) →
        (∀ l ∈ L2, includeToken.isPrefixOf l = false) →
        (∀ l ∈ L3, includeToken.isPrefixOf l = false) →
        fuel = L1.length + (splitLines bsrc).length + L2.length + L3.length + 2 →
        getShaderSource P fuel sname
          = .ok (preamble P ++ (joinLines L1 ++ (joinLines (splitLines bsrc)
              ++ (joinLines L2 ++ joinLines L3)))) ⟨[inm], []⟩) := by
  refine ⟨?_, ?_, ?_, ?_, ?_⟩
  · intro P fuel line rest acc st nm h1 h2 h3
    exact run_skip P fuel line rest acc st nm h1 h2 h3
  · intro P fuel lines acc st out st2 h
    exact run_seen_grows P fuel lines acc st out st2 h
  · intro P fuel sname bnm cnm src csrc bsrc lineC lineB lineB' L1 L2 L3 M1 M2
      h1 h2 h3 h4 h5 h6 h7 h8 h9 h10 h11 h12 h13 h14 h15 h16 h17 h18 h19
    exact dedup_sibling P fuel sname bnm cnm src csrc bsrc lineC lineB lineB'
      L1 L2 L3 M1 M2 h1 h2 h3 h4 h5 h6 h7 h8 h9 h10 h11 h12 h13 h14 h15 h16 h17 h18 h19
  · intro P fuel sname bnm cnm src csrc bsrc lineB lineC lineB' L1 L2 L3 M1 M2
      h1 h2 h3 h4 h5 h6 h7 h8 h9 h10 h11 h12 h13 h14 h15 h16 h17 h18 h19
    exact dedup_nested P fuel sname bnm cnm src csrc bsrc lineB lineC lineB'
      L1 L2 L3 M1 M2 h1 h2 h3 h4 h5 h6 h7 h8 h9 h10 h11 h12 h13 h14 h15 h16 h17 h18 h19
  · intro P fuel sname inm src bsrc line1 line2 L1 L2 L3
      h1 h2 h3 h4 h5 h6 h7 h8 h9 h10 h11 h12
    exact dedup_toplevel P fuel sname inm src bsrc line1 line2 L1 L2 L3
      h1 h2 h3 h4 h5 h6 h7 h8 h9 h10 h11 h12

/-- Witness for C3: the spec's top-level example (`A.glsl` includes `"B"`
twice — emitted once, at the first occurrence), a sibling duplicate
(`A.glsl` includes `"C"` whose body includes `"B"`, then includes `"B"`
again — the top-level re-occurrence is skipped because the nested
insertion persisted), and a nested duplicate (`A.glsl` includes `"B"`,
then `"C"` whose body re-includes `"B"` — the occurrence inside `C` is
skipped). -/
theorem C3_duplicate_include_skipped_witness :
    (getShaderSource procC3 6 (("A.glsl").toList)
        = .ok (("#version 450 core\nx\nb1\ny\nz\n").toList) ⟨[("B").toList], []⟩) ∧
    (getShaderSource procC3s 9 (("A.glsl").toList)
        = .ok (("#version 450 core\nx\nc1\nb1\nc2\ny\nz\n").toList)
            ⟨[("B").toList, ("C").toList], []⟩) ∧
    (getShaderSource procC3n 9 (("A.glsl").toList)
        = .ok (("#version 450 core\nx\nb1\ny\nc1\nc2\nz\n").toList)
            ⟨[("C").toList, ("B").toList], []⟩) := by
  refine ⟨?_, ?_, ?_⟩
  · have h := C3_duplicate_include_skipped.2.2.2.2 procC3 6 (("A.glsl").toList)
      (("B").toList) (("x\n#include \"B\"\ny\n#include \"B\"\nz").toList)
      (("b1").toList) (("#include \"B\"").toList) (("#include \"B\"").toList)
      [("x").toList] [("y").toList] [("z").toList]
      (by decide) (by decide) (by decide) (by decide) (by decide) (by decide)
      (by decide) (by decide) (by decide) (by decide) (by decide) (by decide)
    exact h.trans (by decide)
  · have h := C3_duplicate_include_skipped.2.2.1 procC3s 9 (("A.glsl").toList)
      (("B").toList) (("C").toList)
      (("x\n#include \"C\"\ny\n#include \"B\"\nz").toList)
      (("c1\n#include \"B\"\nc2").toList) (("b1").toList)
      (("#include \"C\"").toList) (("#include \"B\"").toList)
      (("#include \"B\"").toList)
      [("x").toList] [("y").toList] [("z").toList] [("c1").toList] [("c2").toList]
      (by decide) (by decide) (by decide) (by decide) (by decide) (by decide)
      (by decide) (by decide) (by decide) (by decide) (by decide) (by decide)
      (by decide) (by decide) (by decide) (by decide) (by decide) (by decide)
      (by decide)
    exact h.trans (by decide)
  · have h := C3_duplicate_include_skipped.2.2.2.1 procC3n 9 (("A.glsl").toList)
      (("B").toList) (("C").toList)
      (("x\n#include \"B\"\ny\n#include \"C\"\nz").toList)
      (("c1\n#include \"B\"\nc2").toList) (("b1").toList)
      (("#include \"B\"").toList) (("#include \"C\"").toList)
      (("#include \"B\"").toList)
      [("x").toList] [("y").toList] [("z").toList] [("c1").toList] [("c2").toList]
      (by decide) (by decide) (by decide) (by decide) (by decide) (by decide)
      (by decide) (by decide) (by decide) (by decide) (by decide) (by decide)
      (by decide) (by decide) (by decide) (by decide) (by decide) (by decide)
      (by decide)
    exact h.trans (by decide)

/-- C7: a `#include` line with no quote at all, or with a single quote
that is never closed, makes the whole `getShaderSource` call return
absence, and the logging collaborator receives the formatted `Invalid
include directive` diagnostic for that line. -/
theorem C7_malformed_include_fails (P : Processor) (fuel : Nat)
    (sname src line : Str) (L1 L2 : List Str)
    (hsrc : P.provider .Source sname = some src)
    (hsplit : splitLines src = L1 ++ line :: L2)
    (hL1 : ∀ l ∈ L1, includeToken.isPrefixOf l = false)
    (hline : includeToken.isPrefixOf line = true)
    (hbad : ('"' ∉ line) ∨
      (∃ pre suf, line = pre ++ '"' :: suf ∧ '"' ∉ pre ∧ '"' ∉ suf))
    (hfuel : L1.length < fuel) :
    getShaderSource P fuel sname = .fail ⟨[], [invalidMsg line]⟩ := by
  have hex : extractName line = none := by
    rcases hbad with h | ⟨pre, suf, rfl, hp, hs⟩
    · exact extractName_noQ line h
    · exact extractName_one pre suf hp hs
  simp only [getShaderSource, hsrc, hsplit]
  calc run P fuel (L1 ++ line :: L2) (preamble P) ⟨[], []⟩
      = run P ((fuel - L1.length - 1) + 1) (line :: L2)
          (preamble P ++ joinLines L1) ⟨[], []⟩ :=
        run_plainChunk P L1 hL1 fuel _ (by omega) _ _ _
    _ = .fail ⟨[], [] ++ [invalidMsg line]⟩ :=
        run_badline P _ line L2 _ _ hline hex
    _ = .fail ⟨[], [invalidMsg line]⟩ := by simp

/-- Witness for C7: the spec's example line `#include B.glsl` (no quotes)
yields absence and one logged diagnostic. -/
theorem C7_malformed_include_fails_witness :
    getShaderSource procC7 1 (("s.glsl").toList)
      = .fail ⟨[], [invalidMsg (("#include B.glsl").toList)]⟩ := by
  exact C7_malformed_include_fails procC7 1 (("s.glsl").toList)
    (("#include B.glsl").toList) (("#include B.glsl").toList) [] []
    (by decide) (by decide) (by decide) (by decide)
    (Or.inl (by decide)) (by decide)

/-- Counterexample to C4 as stated: on the line `#include "A" "B"` the
processor of `src/include/glsl/glsl_source_processor.inl` uses
`line.rfind('"')`, so the extracted name runs from the first quote to the
LAST quote — `A" "B` — not to the next quote (`A`); text after the first
closing quote does change the extracted name in that variant. -/
theorem C4_counterexample_rfind :
    extractName (("#include \"A\" \"B\"").toList) = some (("A\" \"B").toList) ∧
    ("A\" \"B").toList ≠ ("A").toList := by
  exact ⟨by decide, by decide⟩

/-- C4 (amended): the claim holds as stated for the variant in
`src/glsl_source_processor.inl` (`extractNameNext`): the name is the
substring strictly between the first quote and the next quote, and any
suffix after that closing quote — further quotes included — is
irrelevant.  For the variant in `src/include/glsl` (`extractName`, which
uses `rfind`) the same extraction holds only when no further quote
follows the closing one. -/
theorem C4_extract_between_quotes (pre mid suf : Str)
    (hp : '"' ∉ pre) (hm : '"' ∉ mid) :
    extractNameNext (pre ++ '"' :: (mid ++ '"' :: suf)) = some mid ∧
    ('"' ∉ suf → extractName (pre ++ '"' :: (mid ++ '"' :: suf)) = some mid) := by
  exact ⟨extractNameNext_found pre mid suf hp hm,
    fun hs => extractName_found pre mid suf hp hm hs⟩

/-- Witness for C4: a trailing quoted comment does not change the
find-next extraction, and a quote-free tail does not change the rfind
extraction. -/
theorem C4_extract_between_quotes_witness :
    extractNameNext (("#include \"A\" \"B\"").toList) = some (("A").toList) ∧
    extractName (("#include \"A\" tail").toList) = some (("A").toList) := by
  constructor
  · exact (C4_extract_between_quotes (("#include ").toList) (("A").toList)
      ((" \"B\"").toList) (by decide) (by decide)).1
  · exact (C4_extract_between_quotes (("#include ").toList) (("A").toList)
      ((" tail").toList) (by decide) (by decide)).2 (by decide)

/-- C5: absence from the raw reader propagates unchanged through
`SillyFileProvider`, through `CachedFileProvider::getString` of
`src/include/glsl/glsl_source_processor.inl`, and through
`SmartCachedFileProvider` — but NOT through `CachedFileProvider::getSource`
of `src/glsl_source_processor.inl`: evaluated at a path whose read fails
with an empty cache, that function dereferences the empty optional
(undefined behaviour, `CppVal.ub`) instead of returning `nullopt`. -/
theorem C5_absence_propagation :
    (∀ p : Str, SillyFileProvider_getString (fun _ => none) p = none) ∧
    (∀ p : Str, CachedFileProvider_getString (fun _ => none) [] p = (none, [])) ∧
    (∀ p : Str, SmartCachedFileProvider_getString
        ⟨fun _ => some (0, 0), fun _ => none⟩ [] p = (none, [])) ∧
    CachedFileProviderAlt_getSource (fun _ => none) [] (("a").toList) = (.ub, []) := by
  exact ⟨fun p => rfl, fun p => rfl, fun p => rfl, rfl⟩

/-- Counterexample to C6 as stated: with the table `{A ↦ 1}`, the
one-argument `define("A")` — `definitionMap_.emplace("A", "")` — leaves
the old value `1` in place; it does not replace it with the empty
string. -/
theorem C6_counterexample_emplace :
    lookupDef (emplaceDef [((("A").toList), (("1").toList))] (("A").toList)) (("A").toList)
      = some (("1").toList) ∧
    some (("1").toList) ≠ some ([] : Str) := by
  exact ⟨by decide, by decide⟩

/-- C6 (amended): on a name already present, the two-argument
`define(name, value)` (`insert_or_assign`) overwrites the stored value
with the (stringified) new value, while the one-argument `define(name)`
(`emplace` with an empty string) keeps the old value unchanged; the empty
string is stored only when the name was absent. -/
theorem C6_define_overwrite (m : List (Str × Str)) (n v old : Str)
    (h : lookupDef m n = some old) :
    lookupDef (insertOrAssign m n v) n = some v ∧
    lookupDef (emplaceDef m n) n = some old := by
  induction m with
  | nil => simp [lookupDef] at h
  | cons a m' ih =>
      obtain ⟨am, aw⟩ := a
      by_cases hn : am = n
      · subst hn
        simp [lookupDef] at h
        simp [insertOrAssign, emplaceDef, lookupDef, h]
      · simp [lookupDef, hn] at h
        simp [insertOrAssign, emplaceDef, lookupDef, hn, ih h]

/-- Witness for C6: overwriting `A ↦ 1` with `define("A", 2)` yields `2`;
`define("A")` keeps `1`. -/
theorem C6_define_overwrite_witness :
    lookupDef (insertOrAssign [((("A").toList), (("1").toList))] (("A").toList)
        (("2").toList)) (("A").toList) = some (("2").toList) ∧
    lookupDef (emplaceDef [((("A").toList), (("1").toList))] (("A").toList)) (("A").toList)
      = some (("1").toList) := by
  exact C6_define_overwrite [((("A").toList), (("1").toList))] (("A").toList)
    (("2").toList) (("1").toList) (by decide)

/-- C8: the invalidation-aware cache serves a request from the cache only
when an entry's `CacheKey` — path, last-write time and size — is
structurally equal to the probed key, and then it returns the stored text
with no read at all (the result is the same for every raw reader); when
no structurally equal key is stored, the file is read; and a filesystem
error raised while probing metadata is caught and becomes absence. -/
theorem C8_smart_cache (fs : SmartFS) (cache : List (CacheKey × Str)) (p : Str) :
    (fs.meta p = none → SmartCachedFileProvider_getString fs cache p = (none, cache)) ∧
    (∀ (t : Int) (sz : Nat) (s : Str), fs.meta p = some (t, sz) →
      findEntry cache ⟨p, t, sz⟩ = some s →
      ∀ rd : Str → Option Str,
        SmartCachedFileProvider_getString ⟨fs.meta, rd⟩ cache p = (some s, cache)) ∧
    (∀ (t : Int) (sz : Nat), fs.meta p = some (t, sz) →
      findEntry cache ⟨p, t, sz⟩ = none →
      SmartCachedFileProvider_getString fs cache p =
        (match fs.read p with
         | none => (none, cache)
         | some s => (some s, cache ++ [(⟨p, t, sz⟩, s)]))) := by
  refine ⟨?_, ?_, ?_⟩
  · intro h
    simp [SmartCachedFileProvider_getString, h]
  · intro t sz s hm hf rd
    simp [SmartCachedFileProvider_getString, hm, hf]
  · intro t sz hm hf
    simp [SmartCachedFileProvider_getString, hm, hf]

/-- Witness for C8: a structural hit on key `(a, 7, 3)` returns the
cached text although every read fails, and a failing metadata probe on
`b` returns absence. -/
theorem C8_smart_cache_witness :
    (SmartCachedFileProvider_getString ⟨fsC8.meta, fun _ => none⟩ cacheC8 (("a").toList)
        = (some (("abc").toList), cacheC8)) ∧
    (SmartCachedFileProvider_getString fsC8 cacheC8 (("b").toList) = (none, cacheC8)) := by
  constructor
  · exact (C8_smart_cache fsC8 cacheC8 (("a").toList)).2.1 7 3 (("abc").toList)
      (by decide) (by decide) (fun _ => none)
  · exact (C8_smart_cache fsC8 cacheC8 (("b").toList)).1 (by decide)

/-- Counterexample to C9 as stated: over the cyclic provider (the
top-level file `T` includes `A`, which re-includes `T` by name), the
expansion is NOT unbounded recursion — it returns `ok` at fuel `5` — and
the final `alreadyIncludedFiles` set DOES contain the top-level name
`T`, inserted by the include line inside `A`. -/
theorem C9_cycle_counterexample :
    getShaderSource cycProc 5 (("T").toList)
      = .ok (("#version 450 core\n").toList) ⟨[("T").toList, ("A").toList], []⟩ := by
  decide

/-- C9 (amended): the top-level call starts from an empty
`alreadyIncludedFiles` set — the top-level name is never seeded, and only
names reached through `#include` lines are inserted — but when an
included file re-includes the top-level file by name, that name is
inserted at the re-including line before recursing, so the nested
re-expansion skips the already-seen includes and the whole expansion
terminates instead of recursing unboundedly. -/
theorem C9_cycle_terminates :
    (∀ (P : Processor) (fuel : Nat) (sname src : Str),
        P.provider .Source sname = some src →
        getShaderSource P fuel sname
          = run P fuel (splitLines src) (preamble P) ⟨[], []⟩) ∧
    (getShaderSource cycProc 6 (("T").toList)
        = .ok (("#version 450 core\n").toList) ⟨[("T").toList, ("A").toList], []⟩) := by
  refine ⟨?_, by decide⟩
  intro P fuel sname src h
  simp only [getShaderSource, h]

/-- Witness for C9: the empty-seen-set fact at the cyclic provider. -/
theorem C9_cycle_terminates_witness :
    getShaderSource cycProc 0 (("T").toList)
      = run cycProc 0 (splitLines (inclLine (("A").toList))) (preamble cycProc) ⟨[], []⟩ := by
  exact (C9_cycle_terminates).1 cycProc 0 (("T").toList) (inclLine (("A").toList)) (by decide)

/-- C10: `getShaderSource` never mutates the processor state — after any
sequence of public calls the provider and version string are those given
at construction, the definition table is exactly the fold of the
`define`/`undef`/`undefAll` calls (so `getShaderSource` queries leave it
unchanged and entries persist across queries until explicitly removed),
and a sequence consisting only of `getShaderSource` queries leaves the
whole state identical. -/
theorem C10_getShaderSource_frame (P : Processor) (calls : List ApiCall) :
    ((applyCalls P calls).1.provider = P.provider ∧
     (applyCalls P calls).1.glslVersion = P.glslVersion ∧
     (applyCalls P calls).1.definitionMap = calls.foldl tableStep P.definitionMap) ∧
    ((∀ c ∈ calls, c.isGetShader = true) → (applyCalls P calls).1 = P) := by
  constructor
  · induction calls generalizing P with
    | nil => exact ⟨rfl, rfl, rfl⟩
    | cons c cs ih =>
        cases c with
        | getShader fuel n => simpa [applyCalls, tableStep] using ih P
        | defineV n v =>
            simpa [applyCalls, tableStep] using
              ih { P with definitionMap := insertOrAssign P.definitionMap n v }
        | defineE n =>
            simpa [applyCalls, tableStep] using
              ih { P with definitionMap := emplaceDef P.definitionMap n }
        | undefN n =>
            simpa [applyCalls, tableStep] using
              ih { P with definitionMap := eraseDef P.definitionMap n }
        | undefAll =>
            simpa [applyCalls, tableStep] using
              ih { P with definitionMap := [] }
  · induction calls with
    | nil => intro _; rfl
    | cons c cs ih =>
        intro hall
        cases c with
        | getShader fuel n =>
            have := ih (fun x hx => hall x (List.mem_cons_of_mem _ hx))
            simpa [applyCalls] using this
        | defineV n v =>
            simpa [ApiCall.isGetShader] using hall (.defineV n v) (List.mem_cons_self _ _)
        | defineE n =>
            simpa [ApiCall.isGetShader] using hall (.defineE n) (List.mem_cons_self _ _)
        | undefN n =>
            simpa [ApiCall.isGetShader] using hall (.undefN n) (List.mem_cons_self _ _)
        | undefAll =>
            simpa [ApiCall.isGetShader] using hall .undefAll (List.mem_cons_self _ _)

/-- Witness for C10: two `getShaderSource` queries leave the state
identical. -/
theorem C10_getShaderSource_frame_witness :
    (applyCalls procC10 callsC10).1 = procC10 := by
  exact (C10_getShaderSource_frame procC10 callsC10).2 (by decide)
